import Mathlib

/-!
Verification development for the youtube_commercial_detector repository.

The repository's core is a batch orchestration engine (scan-sqs-s3.py) plus
pipeline variants (download_youtube*.py, find_phrase.py).  Durations are
modelled exactly as rationals (the Python code computes with floats produced
by ffprobe plus integer arithmetic); machine integers are Nat; fallible code
is modelled with Except/Option; I/O effects relevant to the claims are made
visible as explicit action traces.
-/

/-! ## SegmentationPlanner

`split_audio_sliding` in download_youtube-SlidingWindow.py:
  step = segment_duration - overlap; start = 0
  while start < total_duration: emit (idx, start, segment_duration); start += step

`_split_audio` in step2-sqs-s3-download/scan-sqs-s3.py has the same loop but
advances by `segment_duration` (its `overlap` parameter is never read):
  while start < total_duration: emit; start += segment_duration

`splitGo` embeds the shared loop, parameterised by the step actually used.
The Python loop diverges when step ≤ 0; the embedding guards on 0 < step and
returns [] there (all claims assume a positive step). -/
def splitGo (total segDur step : ℚ) (idx : ℕ) (start : ℚ) : List (ℕ × ℚ × ℚ) :=
  if h : 0 < step ∧ start < total then
    (idx, start, segDur) :: splitGo total segDur step (idx + 1) (start + step)
  else []
termination_by (⌈(total - start) / step⌉₊ : ℕ)
decreasing_by
  have hstep : 0 < step := h.1
  have hlt : start < total := h.2
  have hx : 0 < (total - start) / step := div_pos (by linarith) hstep
  have harg : (total - (start + step)) / step = (total - start) / step - 1 := by
    rw [show total - (start + step) = (total - start) - step by ring, sub_div,
      div_self (ne_of_gt hstep)]
  rw [harg]
  have h1 : 1 ≤ ⌈(total - start) / step⌉₊ := Nat.ceil_pos.mpr hx
  have h2 : ⌈(total - start) / step - 1⌉₊ ≤ ⌈(total - start) / step⌉₊ - 1 := by
    rw [Nat.ceil_le]
    push_cast [Nat.cast_sub h1]
    have := Nat.le_ceil ((total - start) / step)
    linarith
  omega

/-- `split_audio_sliding(wav, segment_duration, overlap)`: sliding-window
segmentation with step `segment_duration - overlap`.  Elements are
(index, start_time, segment_duration). -/
def split_audio_sliding (total segDur overlap : ℚ) : List (ℕ × ℚ × ℚ) :=
  splitGo total segDur (segDur - overlap) 0 0

/-- `YouTubePhraseScanner._split_audio(wav, dir, segment_duration, overlap)`:
its loop advances `start_time` by `segment_duration`; the `overlap` parameter
is not read anywhere in the body. -/
def split_audio_scanner (total segDur overlap : ℚ) : List (ℕ × ℚ × ℚ) :=
  splitGo total segDur segDur 0 0

/-! ## TranscriptionClient

`transcribe_segment(segment_file, retries=3, backoff_factor=2)` in
download_youtube.py / download_youtube-SlidingWindow.py:

  for attempt in range(retries):
      try:
          response = requests.post(...)
          if response.status_code == 200:
              return response.json().get("text", "")
          else: print(...retrying...)
      except Exception: print(...retrying...)
      time.sleep(backoff_factor ** attempt)
  return ""

One provider attempt either returns HTTP 200 with a parsed JSON body whose
"text" field may be absent (`success`), returns a non-200 status
(`badStatus`), or raises (network error, JSON parse error: `raised`).
The embedding returns (text, totalSleepSeconds, attemptsMade). -/
inductive AttemptOutcome where
  | success (text : Option String)
  | badStatus (code : ℕ)
  | raised (msg : String)
deriving DecidableEq

/-- Boolean test used to state "the provider fails on this attempt". -/
def isFailureOutcome : AttemptOutcome → Bool
  | AttemptOutcome.success _ => false
  | AttemptOutcome.badStatus _ => true
  | AttemptOutcome.raised _ => true

/-- Loop of `transcribe_segment`: args are attempt index, seconds slept so
far, and remaining loop iterations.  The sleep is inside the loop body, so it
also runs on the final failed attempt. -/
def transcribe_segment_go (provider : ℕ → AttemptOutcome) (backoff : ℕ) :
    ℕ → ℕ → ℕ → String × ℕ × ℕ
  | attempt, slept, 0 => ("", slept, attempt)
  | attempt, slept, remaining + 1 =>
    match provider attempt with
    | AttemptOutcome.success t => (t.getD "", slept, attempt + 1)
    | AttemptOutcome.badStatus _ =>
        transcribe_segment_go provider backoff (attempt + 1) (slept + backoff ^ attempt) remaining
    | AttemptOutcome.raised _ =>
        transcribe_segment_go provider backoff (attempt + 1) (slept + backoff ^ attempt) remaining

/-- `transcribe_segment` returning (text, total sleep seconds, attempts made). -/
def transcribe_segment (provider : ℕ → AttemptOutcome) (retries backoff : ℕ) :
    String × ℕ × ℕ :=
  transcribe_segment_go provider backoff 0 0 retries

/-! ## PhraseScanner

`scan_transcripts` (find_phrase.py) and `_scan_transcripts` (scan-sqs-s3.py):
for each transcript file, `re.findall(re.escape(phrase), content,
re.IGNORECASE)` counts non-overlapping left-to-right case-insensitive literal
occurrences; a record (filename, minute_idx + 1, count) is kept when the
count is positive; totals accumulate occurrences, whitespace-split words and
characters; `video_duration_sec = num_segments * 60`. -/

/-- Non-overlapping left-to-right count of the literal pattern `p` in a text,
mirroring `re.findall` with an escaped pattern: scan one character at a time;
on a match consume the whole match (the `skip` counter skips the remaining
`p.length - 1` characters).  Callers ensure `p` is nonempty. -/
def countMA (p : List Char) : List Char → ℕ → ℕ
  | [], _ => 0
  | _ :: rest, Nat.succ k => countMA p rest k
  | c :: rest, 0 =>
    if p.isPrefixOf (c :: rest) then 1 + countMA p rest (p.length - 1)
    else countMA p rest 0

/-- `len(re.findall(re.escape(phrase), content, re.IGNORECASE))`.  Case
insensitivity is modelled by lowercasing both sides (exact for ASCII, which
is all the claims exercise).  An empty pattern matches at every position
including the end of the text. -/
def count_occurrences (phrase content : String) : ℕ :=
  let p := phrase.toList.map Char.toLower
  let t := content.toList.map Char.toLower
  if p.isEmpty then t.length + 1 else countMA p t 0

/-- `len(content.split())`: whitespace-run split, empty tokens discarded. -/
def wordCount (s : String) : ℕ :=
  ((s.split Char.isWhitespace).filter (fun w => !w.isEmpty)).length

/-- One entry of `files_with_phrase`: `{"minute": idx + 1, "occurrences": n}`
(the filename is determined by the segment index and omitted). -/
structure OccRecord where
  minute : ℕ
  occurrences : ℕ
deriving DecidableEq

/-- Aggregate statistics returned by `_scan_transcripts`. -/
structure ScanStats where
  video_duration_sec : ℕ
  total_words : ℕ
  total_chars : ℕ
  total_occurrences : ℕ
  files_with_phrase : List OccRecord
deriving DecidableEq

/-- Accumulator of the per-file loop in `_scan_transcripts`. -/
structure ScanAcc where
  occurrences : ℕ
  words : ℕ
  chars : ℕ
  records : List OccRecord
deriving DecidableEq

/-- Per-file loop of `_scan_transcripts`: `i` is the position of the current
file in the sorted file list (the segment index parsed from its name). -/
def scan_go (phrase : String) : List String → ℕ → ScanAcc
  | [], _ => ⟨0, 0, 0, []⟩
  | content :: rest, i =>
    let occ := count_occurrences phrase content
    let next := scan_go phrase rest (i + 1)
    ⟨occ + next.occurrences, wordCount content + next.words,
      content.length + next.chars,
      (if 0 < occ then [OccRecord.mk (i + 1) occ] else []) ++ next.records⟩

/-- `_scan_transcripts(temp_dir, phrase)` over the sorted transcript
contents; `video_duration_sec = num_segments * 60` is hardcoded to 60 in the
source. -/
def scan_transcripts (texts : List String) (phrase : String) : ScanStats :=
  let acc := scan_go phrase texts 0
  ⟨texts.length * 60, acc.words, acc.chars, acc.occurrences, acc.records⟩

/-! ## QueueClient

`YouTubePhraseScanner._get_video_from_queue`: probes the approximate queue
depth (returning early when it is "0" or the probe raises), receives at most
one message, parses its JSON body, deletes the message right after a
successful parse, and only then checks for the mandatory `youtube_url`
field.  A JSON parse failure is caught by `except json.JSONDecodeError`
BEFORE the delete call runs; any other exception (including a failing
delete) is caught by the outer `except Exception`.  Every outcome other than
a parsed body with a `youtube_url` returns `(None, None)`. -/

/-- The parse-relevant shape of a received message body. -/
inductive MsgBody where
  | invalidJson
  | parsedNoUrl
  | parsed (url : String) (phrase : Option String)
deriving DecidableEq

/-- Behaviour of the queue backend for one `_get_video_from_queue` call.
`deleteOk` tells whether the `delete_message` call would succeed. -/
inductive FetchOutcome where
  | queueEmpty
  | depthProbeError
  | noMessages
  | msg (body : MsgBody) (deleteOk : Bool)
deriving DecidableEq

/-- Externally visible events of the orchestrator, in order of occurrence.
`download` marks the start of `_process_single_video` (download, conversion,
segmentation, transcription and scanning all happen inside it); `save` marks
the return of `_save_results_to_s3`; `failLog` the per-item `except` branch. -/
inductive Act where
  | qreceive
  | qdelete (url : Option String)
  | dedupCheck (vid : String)
  | skip (vid : String)
  | download (vid : String)
  | save (vid : String)
  | failLog (vid : String)
deriving DecidableEq

/-- `_get_video_from_queue`: returns the optional work item
`(youtube_url, phrase)` plus the queue actions performed during the call. -/
def get_video_from_queue : FetchOutcome → Option (String × Option String) × List Act
  | FetchOutcome.queueEmpty => (none, [])
  | FetchOutcome.depthProbeError => (none, [])
  | FetchOutcome.noMessages => (none, [Act.qreceive])
  | FetchOutcome.msg MsgBody.invalidJson _ => (none, [Act.qreceive])
  | FetchOutcome.msg MsgBody.parsedNoUrl true =>
      (none, [Act.qreceive, Act.qdelete none])
  | FetchOutcome.msg MsgBody.parsedNoUrl false => (none, [Act.qreceive])
  | FetchOutcome.msg (MsgBody.parsed url phrase) true =>
      (some (url, phrase), [Act.qreceive, Act.qdelete (some url)])
  | FetchOutcome.msg (MsgBody.parsed _ _) false => (none, [Act.qreceive])

/-! ## ResultStore -/

/-- `YouTubePhraseScanner.results_exist_in_s3(video_id)` applied to the raw
`list_objects_v2` outcome: `Except.error` models a raised client error
(caught, logged, `return False`); `Except.ok none` a response without a
`Contents` key; `Except.ok (some objs)` a response listing `objs` under the
`results/{video_id}/` prefix. -/
def results_exist_in_s3 (resp : Except String (Option (List String))) : Bool :=
  match resp with
  | Except.error _ => false
  | Except.ok none => false
  | Except.ok (some objs) => decide (0 < objs.length)

/-- S3 backend model for the dedup probe: `store` is the list of video ids
that have at least one object under `results/{vid}/`; a failing check raises. -/
def listResultsResp (checkFails : Bool) (store : List String) (vid : String) :
    Except String (Option (List String)) :=
  if checkFails then Except.error "client error"
  else
    match store.filter (fun x => x == vid) with
    | [] => Except.ok none
    | objs => Except.ok (some objs)

/-! ## BatchOrchestrator -/

/-- The dict assembled for one successfully processed video (the
`processed_at` timestamp is wall-clock metadata and not modelled). -/
structure VideoResult where
  video_id : String
  youtube_url : String
  phrase : String
  stats : ScanStats
deriving DecidableEq

/-- Environment of `process_batch`: everything the loop consults about the
world, per video id.  `processVideo` is the outcome of
`_process_single_video` (an `Except.error` models any exception raised
between download and scan); `saveOk` tells whether `_save_results_to_s3`
actually wrote the object (that function catches its own exceptions and only
reports success as a boolean). -/
structure BatchEnv where
  batchSize : ℕ
  defaultPhrase : String
  extract : String → String
  checkFails : String → Bool
  processVideo : String → Except String ScanStats
  saveOk : String → Bool

/-- Result of a `process_batch` run: the returned `batch_results`, the final
`processed_count`, the final result-store contents, and the action trace. -/
structure BatchOut where
  results : List VideoResult
  processed : ℕ
  store : List String
  trace : List Act
deriving DecidableEq

/-- `current_phrase = custom_phrase if custom_phrase else self.phrase`:
a missing or falsy (empty) custom phrase falls back to the default. -/
def resolve_phrase (custom : Option String) (dflt : String) : String :=
  match custom with
  | some p => if p = "" then dflt else p
  | none => dflt

/-- `YouTubePhraseScanner.process_batch` loop.  Each iteration: fetch
(breaking on a falsy url), resolve the phrase (a falsy custom phrase falls
back to the default), extract the video id, dedup-check against the store
(skipping with `continue` on a hit), otherwise run `_process_single_video`;
an exception there is caught, logged, and the loop continues; on success the
result is saved (the store grows when the put succeeds), appended, and
`processed_count` is incremented. -/
def process_batch_go (env : BatchEnv) (queue : List FetchOutcome)
    (store : List String) (processed : ℕ) (results : List VideoResult) : BatchOut :=
  if processed < env.batchSize then
    match queue with
    | [] => ⟨results, processed, store, []⟩
    | f :: rest =>
      let ftr := (get_video_from_queue f).2
      match (get_video_from_queue f).1 with
      | none => ⟨results, processed, store, ftr⟩
      | some (url, custom) =>
        if url = "" then ⟨results, processed, store, ftr⟩
        else
          let vid := env.extract url
          let cur := resolve_phrase custom env.defaultPhrase
          if results_exist_in_s3 (listResultsResp (env.checkFails vid) store vid) then
            let out := process_batch_go env rest store processed results
            ⟨out.results, out.processed, out.store,
              ftr ++ (Act.dedupCheck vid :: Act.skip vid :: out.trace)⟩
          else
            match env.processVideo vid with
            | Except.error _ =>
              let out := process_batch_go env rest store processed results
              ⟨out.results, out.processed, out.store,
                ftr ++ (Act.dedupCheck vid :: Act.download vid ::
                  Act.failLog vid :: out.trace)⟩
            | Except.ok stats =>
              let r : VideoResult := ⟨vid, url, cur, stats⟩
              let store2 := if env.saveOk vid then store ++ [vid] else store
              let out := process_batch_go env rest store2 (processed + 1) (results ++ [r])
              ⟨out.results, out.processed, out.store,
                ftr ++ (Act.dedupCheck vid :: Act.download vid ::
                  Act.save vid :: out.trace)⟩
  else ⟨results, processed, store, []⟩

/-- `process_batch` starting from `processed_count = 0, batch_results = []`. -/
def process_batch (env : BatchEnv) (queue : List FetchOutcome)
    (store : List String) : BatchOut :=
  process_batch_go env queue store 0 []

/-! ## Trace bookkeeping -/

/-- Marks the acknowledgement (deletion) of a queue message. -/
def isDeleteA : Act → Bool
  | Act.qdelete _ => true
  | _ => false

/-- Marks the start of per-video processing. -/
def isDownloadA : Act → Bool
  | Act.download _ => true
  | _ => false

/-- Marks the return of a `_save_results_to_s3` call. -/
def isSaveA : Act → Bool
  | Act.save _ => true
  | _ => false

/-- Marks one `receive_message` call (one queue item consumed). -/
def isReceiveA : Act → Bool
  | Act.qreceive => true
  | _ => false

/-- Number of messages acknowledged in a trace. -/
def countDeleteActions (l : List Act) : ℕ := l.countP isDeleteA

/-- Number of per-video processings started in a trace. -/
def countDownloadActions (l : List Act) : ℕ := l.countP isDownloadA

/-- Number of save-returns in a trace. -/
def countSaveActions (l : List Act) : ℕ := l.countP isSaveA

/-- Number of receive calls in a trace. -/
def countReceiveActions (l : List Act) : ℕ := l.countP isReceiveA

/-- Credit automaton over a trace: the credit is (acknowledged messages) -
(processings started) so far; a trace is accepted from credit `c` when the
credit never becomes negative, i.e. no processing starts without an earlier
unmatched acknowledgement. -/
def ackOk : ℤ → List Act → Bool
  | _, [] => true
  | c, a :: rest =>
    let c2 := c + (if isDeleteA a then 1 else 0) - (if isDownloadA a then 1 else 0)
    decide (0 ≤ c2) && ackOk c2 rest

/-! ## Concrete scenario environments -/

/-- Statistics placeholder for scenario environments. -/
def dummyStats : ScanStats := ⟨0, 0, 0, 0, []⟩

/-- A well-formed queue message carrying a video url (= video id under the
identity extractor) and no custom phrase, with a working delete. -/
def vmsg (v : String) : FetchOutcome := FetchOutcome.msg (MsgBody.parsed v none) true

/-- Scenario environment for failure isolation: processing of "v2" raises,
everything else succeeds; batch size 5. -/
def envC4 : BatchEnv :=
  ⟨5, "hustle", id, fun _ => false,
    fun v => if v = "v2" then Except.error "download failed" else Except.ok dummyStats,
    fun _ => true⟩

/-- Scenario environment with batch size 1 for the over-consumption example. -/
def envC10 : BatchEnv :=
  ⟨1, "hustle", id, fun _ => false, fun _ => Except.ok dummyStats, fun _ => true⟩

/-- Scenario environment whose result-store existence check always raises. -/
def envC8 : BatchEnv :=
  ⟨5, "hustle", id, fun _ => true, fun _ => Except.ok dummyStats, fun _ => true⟩

/-! ## Helper lemmas: segmentation characterization -/

/-- Ceiling of `x - 1` for positive rational `x`. -/
theorem natCeil_sub_one_of_pos (x : ℚ) (hx : 0 < x) : ⌈x - 1⌉₊ = ⌈x⌉₊ - 1 := by
  have h1 : 1 ≤ ⌈x⌉₊ := Nat.ceil_pos.mpr hx
  have hle : ⌈x - 1⌉₊ ≤ ⌈x⌉₊ - 1 := by
    rw [Nat.ceil_le]
    push_cast [Nat.cast_sub h1]
    have := Nat.le_ceil x
    linarith
  have hge : ⌈x⌉₊ - 1 ≤ ⌈x - 1⌉₊ := by
    have : ⌈x⌉₊ ≤ ⌈x - 1⌉₊ + 1 := by
      rw [Nat.ceil_le]
      push_cast
      have := Nat.le_ceil (x - 1)
      linarith
    omega
  omega

/-- The segmentation loop emits exactly the arithmetic progression of starts
below `total`, one segment per element of `range ⌈(total - start) / step⌉₊`. -/
theorem splitGo_eq (total segDur step : ℚ) (hstep : 0 < step) :
    ∀ (n : ℕ) (idx : ℕ) (start : ℚ), n = ⌈(total - start) / step⌉₊ →
      splitGo total segDur step idx start =
        (List.range n).map (fun k => (idx + k, start + (k : ℚ) * step, segDur)) := by
  intro n
  induction n with
  | zero =>
    intro idx start hn
    have hx : (total - start) / step ≤ 0 := Nat.ceil_eq_zero.mp hn.symm
    have hts : total - start ≤ 0 := by
      by_contra hpos
      push_neg at hpos
      exact absurd (div_pos hpos hstep) (by linarith)
    rw [splitGo, dif_neg (by push_neg; intro _; linarith)]
    simp
  | succ n ih =>
    intro idx start hn
    have hcpos : 0 < ⌈(total - start) / step⌉₊ := by omega
    have hx : 0 < (total - start) / step := Nat.ceil_pos.mp hcpos
    have hts : 0 < total - start := by
      by_contra hle
      push_neg at hle
      have : (total - start) / step ≤ 0 := div_nonpos_of_nonpos_of_nonneg hle (le_of_lt hstep)
      linarith
    have harg : (total - (start + step)) / step = (total - start) / step - 1 := by
      rw [show total - (start + step) = (total - start) - step by ring, sub_div,
        div_self (ne_of_gt hstep)]
    have hrec : n = ⌈(total - (start + step)) / step⌉₊ := by
      rw [harg, natCeil_sub_one_of_pos _ hx]
      omega
    rw [splitGo, dif_pos ⟨hstep, by linarith⟩, ih (idx + 1) (start + step) hrec,
      List.range_succ_eq_map]
    simp only [List.map_cons, List.map_map]
    congr 1
    · simp
    · apply List.map_congr_left
      intro k _
      simp only [Function.comp_apply, Prod.mk.injEq]
      refine ⟨by omega, ?_, trivial⟩
      push_cast
      ring

/-- Length of the emitted segment list. -/
theorem splitGo_length (total segDur step : ℚ) (hstep : 0 < step) (idx : ℕ) (start : ℚ) :
    (splitGo total segDur step idx start).length = ⌈(total - start) / step⌉₊ := by
  rw [splitGo_eq total segDur step hstep _ idx start rfl]
  simp

/-- Characterization of the sliding-window planner. -/
theorem split_audio_sliding_eq (total segDur overlap : ℚ) (h : overlap < segDur) :
    split_audio_sliding total segDur overlap =
      (List.range ⌈total / (segDur - overlap)⌉₊).map
        (fun k : ℕ => (k, (k : ℚ) * (segDur - overlap), segDur)) := by
  have hstep : 0 < segDur - overlap := by linarith
  unfold split_audio_sliding
  rw [splitGo_eq total segDur (segDur - overlap) hstep
    ⌈total / (segDur - overlap)⌉₊ 0 0 (by rw [sub_zero])]
  apply List.map_congr_left
  intro k _
  simp

/-- C1 counterexample: the claim quantifies over every `0 ≤ overlap <
segmentDuration` for the segmentation planner, citing both
`split_audio_sliding` and the scanner's `_split_audio`; the latter advances
by `segment_duration` (its overlap parameter is unread), so at
totalDuration = 100, segmentDuration = 60, overlap = 30 it emits 2 segments
while the claim demands ceil(100 / 30) = 4. -/
theorem segmentation_plan_cex :
    (split_audio_scanner 100 60 30).length = 2 ∧
    ⌈(100 : ℚ) / (60 - 30)⌉₊ = 4 ∧ (2 : ℕ) ≠ 4 := by
  refine ⟨?_, ?_, by decide⟩
  · unfold split_audio_scanner
    rw [splitGo_length 100 60 60 (by norm_num) 0 0, sub_zero,
      Nat.ceil_eq_iff (by norm_num)]
    norm_num
  · rw [Nat.ceil_eq_iff (by norm_num)]
    norm_num

/-- C1 (amended): for every totalDuration > 0, segmentDuration > 0 and
0 ≤ overlap < segmentDuration, the sliding-window planner
`split_audio_sliding` emits exactly ceil(totalDuration / (segmentDuration -
overlap)) segments, the first start is 0, each subsequent start is the
previous start plus (segmentDuration - overlap), and the last start is
strictly below totalDuration; the scanner's `_split_audio` ignores its
overlap parameter and behaves as the sliding planner at overlap = 0 (so the
claim holds for it only when overlap = 0). -/
theorem segmentation_plan_corrected (total segDur overlap : ℚ)
    (htot : 0 < total) (hseg : 0 < segDur) (hov : 0 ≤ overlap)
    (hlt : overlap < segDur) :
    ((split_audio_sliding total segDur overlap).length
        = ⌈total / (segDur - overlap)⌉₊
      ∧ (∀ h0 : 0 < (split_audio_sliding total segDur overlap).length,
          ((split_audio_sliding total segDur overlap).get ⟨0, h0⟩).2.1 = 0)
      ∧ (∀ i (hi : i + 1 < (split_audio_sliding total segDur overlap).length),
          ((split_audio_sliding total segDur overlap).get ⟨i + 1, hi⟩).2.1
            = ((split_audio_sliding total segDur overlap).get
                ⟨i, Nat.lt_of_succ_lt hi⟩).2.1 + (segDur - overlap))
      ∧ (∀ hne : 0 < (split_audio_sliding total segDur overlap).length,
          ((split_audio_sliding total segDur overlap).get
            ⟨(split_audio_sliding total segDur overlap).length - 1,
              by omega⟩).2.1 < total)
      ∧ 0 < (split_audio_sliding total segDur overlap).length)
    ∧ split_audio_scanner total segDur overlap = split_audio_sliding total segDur 0 := by
  have hstep : 0 < segDur - overlap := by linarith
  have hchar := split_audio_sliding_eq total segDur overlap hlt
  have hnpos : 0 < ⌈total / (segDur - overlap)⌉₊ :=
    Nat.ceil_pos.mpr (div_pos htot hstep)
  refine ⟨⟨?_, ?_, ?_, ?_, ?_⟩, ?_⟩
  · rw [hchar]; simp
  · rw [hchar]
    intro h0
    simp [List.get_eq_getElem]
  · rw [hchar]
    intro i hi
    simp only [List.length_map, List.length_range] at hi
    simp only [List.get_eq_getElem, List.getElem_map, List.getElem_range]
    push_cast
    ring
  · rw [hchar]
    intro hne
    simp only [List.length_map, List.length_range] at hne ⊢
    simp only [List.get_eq_getElem, List.getElem_map, List.getElem_range]
    have hlast : (⌈total / (segDur - overlap)⌉₊ - 1 : ℕ) < ⌈total / (segDur - overlap)⌉₊ := by
      omega
    have := Nat.lt_ceil.mp hlast
    calc ((⌈total / (segDur - overlap)⌉₊ - 1 : ℕ) : ℚ) * (segDur - overlap)
        < (total / (segDur - overlap)) * (segDur - overlap) := by
          exact mul_lt_mul_of_pos_right this hstep
      _ = total := div_mul_cancel₀ total (ne_of_gt hstep)
  · rw [hchar]; simpa using hnpos
  · unfold split_audio_scanner split_audio_sliding
    rw [sub_zero]

/-- C1 witness: at totalDuration 1250, segmentDuration 600, overlap 30 the
hypotheses hold and the sliding planner emits ceil(1250 / 570) segments. -/
theorem segmentation_plan_witness :
    (0 : ℚ) < 1250 ∧ (0 : ℚ) < 600 ∧ (0 : ℚ) ≤ 30 ∧ (30 : ℚ) < 600 ∧
    (split_audio_sliding 1250 600 30).length = ⌈(1250 : ℚ) / (600 - 30)⌉₊ :=
  ⟨by norm_num, by norm_num, by norm_num, by norm_num,
    (segmentation_plan_corrected 1250 600 30 (by norm_num) (by norm_num)
      (by norm_num) (by norm_num)).1.1⟩

/-! ## TranscriptionClient claims -/

/-- C2 counterexample: with retries = 3, backoffFactor = 2 and a provider
that raises on every attempt, `time.sleep(backoff_factor ** attempt)` is
inside the loop body after the try/except, so it also runs after the final
attempt: the cumulative sleep is 1 + 2 + 4 = 7 seconds, not the claimed 3. -/
theorem transcribe_retry_cex :
    transcribe_segment (fun _ => AttemptOutcome.raised "connection refused") 3 2
      = ("", 7, 3) ∧ (7 : ℕ) ≠ 3 :=
  ⟨rfl, by decide⟩

/-- C2 (amended): for retries = 3 and backoffFactor = 2, if the provider
fails on every attempt (non-success status, thrown error, or malformed
response), `transcribe_segment` returns the empty string after exactly 3
attempts and never propagates the failure (the embedding is a total
function), but it sleeps backoffFactor^attempt seconds after EVERY failed
attempt, the final one included: cumulative sleep 1 + 2 + 4 = 7 seconds. -/
theorem transcribe_retry_amended (provider : ℕ → AttemptOutcome)
    (h : ∀ n, n < 3 → isFailureOutcome (provider n) = true) :
    transcribe_segment provider 3 2 = ("", 7, 3) := by
  have h0 := h 0 (by omega)
  have h1 := h 1 (by omega)
  have h2 := h 2 (by omega)
  have step : ∀ att slept r, isFailureOutcome (provider att) = true →
      transcribe_segment_go provider 2 att slept (r + 1)
        = transcribe_segment_go provider 2 (att + 1) (slept + 2 ^ att) r := by
    intro att slept r hfail
    rcases hp : provider att with t | c | m
    · rw [hp] at hfail
      simp [isFailureOutcome] at hfail
    · simp [transcribe_segment_go, hp]
    · simp [transcribe_segment_go, hp]
  show transcribe_segment_go provider 2 0 0 3 = ("", 7, 3)
  calc transcribe_segment_go provider 2 0 0 3
      = transcribe_segment_go provider 2 1 (0 + 2 ^ 0) 2 := step 0 0 2 h0
    _ = transcribe_segment_go provider 2 2 (0 + 2 ^ 0 + 2 ^ 1) 1 := step 1 _ 1 h1
    _ = transcribe_segment_go provider 2 3 (0 + 2 ^ 0 + 2 ^ 1 + 2 ^ 2) 0 := step 2 _ 0 h2
    _ = ("", 7, 3) := by norm_num [transcribe_segment_go]

/-- C2 witness: a provider returning HTTP 500 on every attempt satisfies the
hypothesis and yields ("", 7, 3). -/
theorem transcribe_retry_witness :
    transcribe_segment (fun _ => AttemptOutcome.badStatus 500) 3 2 = ("", 7, 3) :=
  transcribe_retry_amended (fun _ => AttemptOutcome.badStatus 500) (fun _ _ => rfl)

/-! ## PhraseScanner claims -/

/-- Records emitted by the scan loop are exactly one record per transcript
position with a positive occurrence count, labelled minute = index + 1. -/
theorem scan_go_records_mem (phrase : String) :
    ∀ (texts : List String) (i0 : ℕ) (r : OccRecord),
      r ∈ (scan_go phrase texts i0).records ↔
        ∃ j, ∃ hj : j < texts.length,
          r = OccRecord.mk (i0 + j + 1) (count_occurrences phrase (texts.get ⟨j, hj⟩)) ∧
          0 < count_occurrences phrase (texts.get ⟨j, hj⟩) := by
  intro texts
  induction texts with
  | nil =>
    intro i0 r
    simp [scan_go]
  | cons c rest ih =>
    intro i0 r
    simp only [scan_go, List.mem_append]
    constructor
    · rintro (hmem | hmem)
      · by_cases hocc : 0 < count_occurrences phrase c
        · rw [if_pos hocc] at hmem
          simp only [List.mem_singleton] at hmem
          exact ⟨0, by simp, by simpa using hmem, by simpa using hocc⟩
        · rw [if_neg hocc] at hmem
          simp at hmem
      · obtain ⟨j, hj, hr, hpos⟩ := (ih (i0 + 1) r).mp hmem
        refine ⟨j + 1, by simpa using Nat.succ_lt_succ hj, ?_, ?_⟩
        · simpa [Nat.add_assoc, Nat.add_comm, Nat.add_left_comm] using hr
        · simpa using hpos
    · rintro ⟨j, hj, hr, hpos⟩
      match j with
      | 0 =>
        left
        rw [if_pos (by simpa using hpos)]
        simpa using hr
      | Nat.succ j =>
        right
        refine (ih (i0 + 1) r).mpr ⟨j, by simpa using Nat.lt_of_succ_lt_succ hj, ?_, ?_⟩
        · simpa [Nat.add_assoc, Nat.add_comm, Nat.add_left_comm] using hr
        · simpa using hpos

/-- C7: phrase counting is case-insensitive, regex-escaped literal substring
matching (not word-boundary based; internal whitespace of the phrase is
matched literally): "A Hustle Today" contains "hustle" once; "thehustlers"
contains "hustle" once even though it is not a standalone word; "my side
hustle!" contains "side hustle" once; and a record for a segment is emitted
in `files_with_phrase` exactly when that segment's count is positive. -/
theorem phrase_scan_substring (texts : List String) (ph : String) (r : OccRecord) :
    count_occurrences "hustle" "A Hustle Today" = 1 ∧
    count_occurrences "hustle" "thehustlers" = 1 ∧
    count_occurrences "side hustle" "my side hustle!" = 1 ∧
    (r ∈ (scan_transcripts texts ph).files_with_phrase ↔
      ∃ j, ∃ hj : j < texts.length,
        r = OccRecord.mk (j + 1) (count_occurrences ph (texts.get ⟨j, hj⟩)) ∧
        0 < count_occurrences ph (texts.get ⟨j, hj⟩)) := by
  refine ⟨by decide, by decide, by decide, ?_⟩
  have h := scan_go_records_mem ph texts 0 r
  simpa [scan_transcripts] using h

/-- C9 counterexample: with a true duration of 125 seconds, the 60-second
fixed-window segmentation produces 3 segments and the scan reports
3 × 60 = 180 seconds, which is an OVERcount of the 125-second true duration,
not the claimed undercount. -/
theorem duration_estimate_cex :
    (split_audio_scanner 125 60 0).length = 3 ∧
    (scan_transcripts ["a", "b", "c"] "hustle").video_duration_sec = 180 ∧
    ¬ ((180 : ℚ) < 125) ∧ (125 : ℚ) < 180 := by
  refine ⟨?_, rfl, by norm_num, by norm_num⟩
  unfold split_audio_scanner
  rw [splitGo_length 125 60 60 (by norm_num) 0 0, sub_zero,
    Nat.ceil_eq_iff (by norm_num)]
  norm_num

/-- C9 (amended): the reported total video duration equals
segmentCount × 60 (the source hardcodes 60); relative to the true duration
fed to the fixed-window 60-second segmentation it OVERcounts: the report is
at least the true duration, and strictly greater exactly when the final
segment is partial (the true duration is not a whole number of 60-second
segments). -/
theorem duration_estimate_amended (texts : List String) (phrase : String)
    (total : ℚ) (htot : 0 < total)
    (hlen : texts.length = (split_audio_scanner total 60 0).length) :
    (scan_transcripts texts phrase).video_duration_sec = texts.length * 60 ∧
    total ≤ ((scan_transcripts texts phrase).video_duration_sec : ℚ) ∧
    ((¬ ∃ k : ℕ, total = 60 * k) →
      total < ((scan_transcripts texts phrase).video_duration_sec : ℚ)) := by
  have hn : texts.length = ⌈total / 60⌉₊ := by
    rw [hlen]
    unfold split_audio_scanner
    rw [splitGo_length total 60 60 (by norm_num) 0 0, sub_zero]
  have hdur : (scan_transcripts texts phrase).video_duration_sec = texts.length * 60 := rfl
  have hle : total ≤ ((texts.length * 60 : ℕ) : ℚ) := by
    rw [hn]
    push_cast
    have hceil := Nat.le_ceil (total / 60)
    calc total = (total / 60) * 60 :=
          (div_mul_cancel₀ total (by norm_num : (60 : ℚ) ≠ 0)).symm
      _ ≤ (⌈total / 60⌉₊ : ℚ) * 60 := by
          exact mul_le_mul_of_nonneg_right hceil (by norm_num)
  refine ⟨hdur, by rw [hdur]; exact hle, ?_⟩
  intro hnm
  rw [hdur]
  rcases lt_or_eq_of_le hle with hlt | heq
  · exact hlt
  · exfalso
    apply hnm
    refine ⟨texts.length, ?_⟩
    rw [heq]
    push_cast
    ring

/-- C9 witness: true duration 125 with the 3 segments it induces; the
reported duration 180 is at least (indeed greater than) 125. -/
theorem duration_estimate_witness :
    (0 : ℚ) < 125 ∧
    (125 : ℚ) ≤ ((scan_transcripts ["a", "b", "c"] "x").video_duration_sec : ℚ) :=
  ⟨by norm_num,
    (duration_estimate_amended ["a", "b", "c"] "x" 125 (by norm_num)
      (by
        unfold split_audio_scanner
        rw [splitGo_length 125 60 60 (by norm_num) 0 0, sub_zero]
        symm
        rw [Nat.ceil_eq_iff (by norm_num)]
        norm_num)).2.1⟩

/-! ## Helper lemmas: one step of the batch loop -/

/-- Loop exit: the processed counter has reached the batch size. -/
theorem pbg_stop (env : BatchEnv) (queue : List FetchOutcome) (store : List String)
    (processed : ℕ) (results : List VideoResult) (h : ¬ processed < env.batchSize) :
    process_batch_go env queue store processed results
      = ⟨results, processed, store, []⟩ := by
  rw [process_batch_go.eq_def, if_neg h]

/-- Loop exit: the modelled queue offers no further fetch outcomes. -/
theorem pbg_nil (env : BatchEnv) (store : List String) (processed : ℕ)
    (results : List VideoResult) (h : processed < env.batchSize) :
    process_batch_go env [] store processed results
      = ⟨results, processed, store, []⟩ := by
  rw [process_batch_go.eq_def, if_pos h]

/-- Loop exit: the fetch produced no work item (`if not youtube_url: break`).-/
theorem pbg_nowork (env : BatchEnv) (f : FetchOutcome) (rest : List FetchOutcome)
    (store : List String) (processed : ℕ) (results : List VideoResult)
    (h : processed < env.batchSize) (hf : (get_video_from_queue f).1 = none) :
    process_batch_go env (f :: rest) store processed results
      = ⟨results, processed, store, (get_video_from_queue f).2⟩ := by
  rw [process_batch_go.eq_def, if_pos h]
  simp only [hf]

/-- Loop exit: the fetched work item has a falsy (empty) url. -/
theorem pbg_emptyurl (env : BatchEnv) (f : FetchOutcome) (rest : List FetchOutcome)
    (store : List String) (processed : ℕ) (results : List VideoResult)
    (custom : Option String) (h : processed < env.batchSize)
    (hf : (get_video_from_queue f).1 = some ("", custom)) :
    process_batch_go env (f :: rest) store processed results
      = ⟨results, processed, store, (get_video_from_queue f).2⟩ := by
  rw [process_batch_go.eq_def, if_pos h]
  simp only [hf, if_true]

/-- Dedup hit: `results_exist_in_s3` is truthy, the item is skipped with
`continue`, nothing else of this iteration runs, counter and results are
untouched, and the loop proceeds with the rest of the queue. -/
theorem pbg_skip (env : BatchEnv) (f : FetchOutcome) (rest : List FetchOutcome)
    (store : List String) (processed : ℕ) (results : List VideoResult)
    (url : String) (custom : Option String) (h : processed < env.batchSize)
    (hf : (get_video_from_queue f).1 = some (url, custom)) (hurl : ¬ url = "")
    (hex : results_exist_in_s3
      (listResultsResp (env.checkFails (env.extract url)) store (env.extract url)) = true) :
    process_batch_go env (f :: rest) store processed results
      = ⟨(process_batch_go env rest store processed results).results,
         (process_batch_go env rest store processed results).processed,
         (process_batch_go env rest store processed results).store,
         (get_video_from_queue f).2
           ++ (Act.dedupCheck (env.extract url) :: Act.skip (env.extract url)
             :: (process_batch_go env rest store processed results).trace)⟩ := by
  rw [process_batch_go.eq_def, if_pos h]
  simp only [hf]
  rw [if_neg hurl]
  simp only [hex, if_true]

/-- Per-item failure: `_process_single_video` raises; the exception is
caught and logged, counter and results are untouched, and the loop proceeds
with the rest of the queue. -/
theorem pbg_fail (env : BatchEnv) (f : FetchOutcome) (rest : List FetchOutcome)
    (store : List String) (processed : ℕ) (results : List VideoResult)
    (url : String) (custom : Option String) (e : String)
    (h : processed < env.batchSize)
    (hf : (get_video_from_queue f).1 = some (url, custom)) (hurl : ¬ url = "")
    (hex : results_exist_in_s3
      (listResultsResp (env.checkFails (env.extract url)) store (env.extract url)) = false)
    (hproc : env.processVideo (env.extract url) = Except.error e) :
    process_batch_go env (f :: rest) store processed results
      = ⟨(process_batch_go env rest store processed results).results,
         (process_batch_go env rest store processed results).processed,
         (process_batch_go env rest store processed results).store,
         (get_video_from_queue f).2
           ++ (Act.dedupCheck (env.extract url) :: Act.download (env.extract url)
             :: Act.failLog (env.extract url)
             :: (process_batch_go env rest store processed results).trace)⟩ := by
  rw [process_batch_go.eq_def, if_pos h]
  simp only [hf]
  rw [if_neg hurl]
  simp only [hex, Bool.false_eq_true, if_false, hproc]

/-- Successful item: processing returns stats, the result is saved (the
store grows exactly when the put succeeded), appended, and the counter
incremented; the loop proceeds with the rest of the queue. -/
theorem pbg_ok (env : BatchEnv) (f : FetchOutcome) (rest : List FetchOutcome)
    (store : List String) (processed : ℕ) (results : List VideoResult)
    (url : String) (custom : Option String) (stats : ScanStats)
    (h : processed < env.batchSize)
    (hf : (get_video_from_queue f).1 = some (url, custom)) (hurl : ¬ url = "")
    (hex : results_exist_in_s3
      (listResultsResp (env.checkFails (env.extract url)) store (env.extract url)) = false)
    (hproc : env.processVideo (env.extract url) = Except.ok stats) :
    process_batch_go env (f :: rest) store processed results
      = (let store2 := if env.saveOk (env.extract url) then store ++ [env.extract url] else store
         let out := process_batch_go env rest store2 (processed + 1)
           (results ++ [⟨env.extract url, url, resolve_phrase custom env.defaultPhrase, stats⟩])
         ⟨out.results, out.processed, out.store,
           (get_video_from_queue f).2
             ++ (Act.dedupCheck (env.extract url) :: Act.download (env.extract url)
               :: Act.save (env.extract url) :: out.trace)⟩) := by
  rw [process_batch_go.eq_def, if_pos h]
  simp only [hf]
  rw [if_neg hurl]
  simp only [hex, Bool.false_eq_true, if_false, hproc]

/-! ## Helper lemmas: store probe and fetch traces -/

/-- The dedup probe is truthy exactly when the store holds a result object
for the video id (when the check itself does not raise). -/
theorem results_exist_mem (store : List String) (vid : String) :
    results_exist_in_s3 (listResultsResp false store vid) = true ↔ vid ∈ store := by
  unfold listResultsResp
  rw [if_neg (by simp)]
  rcases hfl : store.filter (fun x => x == vid) with _ | ⟨a, tl⟩
  · constructor
    · intro htrue
      simp [results_exist_in_s3] at htrue
    · intro hmem
      have hv : vid ∈ store.filter (fun x => x == vid) :=
        List.mem_filter.mpr ⟨hmem, by simp⟩
      rw [hfl] at hv
      simp at hv
  · constructor
    · intro _
      have ha : a ∈ store.filter (fun x => x == vid) := by
        rw [hfl]
        exact List.mem_cons_self a tl
      obtain ⟨hmem, heq⟩ := List.mem_filter.mp ha
      have hav : a = vid := by simpa using heq
      rwa [hav] at hmem
    · intro _
      simp [results_exist_in_s3]

/-- A fetch that returns a work item has already received and deleted the
message, in that order, and did nothing else. -/
theorem fetch_some_trace (f : FetchOutcome) (url : String) (custom : Option String)
    (hf : (get_video_from_queue f).1 = some (url, custom)) :
    (get_video_from_queue f).2 = [Act.qreceive, Act.qdelete (some url)] := by
  rcases f with _ | _ | _ | ⟨body, dOk⟩
  · simp [get_video_from_queue] at hf
  · simp [get_video_from_queue] at hf
  · simp [get_video_from_queue] at hf
  · rcases body with _ | _ | ⟨u, p⟩ <;> rcases dOk <;> simp_all [get_video_from_queue]

/-- Fetch traces contain no processing or save events. -/
theorem fetch_trace_no_processing (f : FetchOutcome) :
    countDownloadActions (get_video_from_queue f).2 = 0 ∧
    countSaveActions (get_video_from_queue f).2 = 0 := by
  rcases f with _ | _ | _ | ⟨body, dOk⟩
  · exact ⟨rfl, rfl⟩
  · exact ⟨rfl, rfl⟩
  · exact ⟨rfl, rfl⟩
  · rcases body with _ | _ | ⟨u, p⟩ <;> rcases dOk <;> exact ⟨rfl, rfl⟩

/-- No element of a fetch trace is a processing-start event. -/
theorem fetch_trace_no_download_mem (f : FetchOutcome) :
    ∀ a ∈ (get_video_from_queue f).2, isDownloadA a = false := by
  rcases f with _ | _ | _ | ⟨body, dOk⟩
  · simp [get_video_from_queue]
  · simp [get_video_from_queue]
  · simp [get_video_from_queue, isDownloadA]
  · rcases body with _ | _ | ⟨u, p⟩ <;> rcases dOk <;>
      simp [get_video_from_queue, isDownloadA]

/-! ## BatchOrchestrator claims -/

/-- C3: when a fetched work item's video id already has a persisted result
in the store (here: because a prior encounter persisted it) and the
existence check does not raise, the iteration is a pure skip: the loop
returns to awaiting the next item with the processed counter, the result
list and the store unchanged, and the iteration's own actions are only the
dedup check and the skip — no processing start (download through
transcription) and no save occurs for that item. -/
theorem dedup_skip (env : BatchEnv) (f : FetchOutcome) (rest : List FetchOutcome)
    (store : List String) (processed : ℕ) (results : List VideoResult)
    (url : String) (custom : Option String)
    (h : processed < env.batchSize)
    (hf : (get_video_from_queue f).1 = some (url, custom)) (hurl : ¬ url = "")
    (hcf : env.checkFails (env.extract url) = false)
    (hmem : env.extract url ∈ store) :
    process_batch_go env (f :: rest) store processed results
      = ⟨(process_batch_go env rest store processed results).results,
         (process_batch_go env rest store processed results).processed,
         (process_batch_go env rest store processed results).store,
         (get_video_from_queue f).2
           ++ (Act.dedupCheck (env.extract url) :: Act.skip (env.extract url)
             :: (process_batch_go env rest store processed results).trace)⟩
    ∧ countDownloadActions ((get_video_from_queue f).2
        ++ [Act.dedupCheck (env.extract url), Act.skip (env.extract url)]) = 0
    ∧ countSaveActions ((get_video_from_queue f).2
        ++ [Act.dedupCheck (env.extract url), Act.skip (env.extract url)]) = 0 := by
  have hex : results_exist_in_s3
      (listResultsResp (env.checkFails (env.extract url)) store (env.extract url)) = true := by
    rw [hcf]
    exact (results_exist_mem store (env.extract url)).mpr hmem
  refine ⟨pbg_skip env f rest store processed results url custom h hf hurl hex, ?_, ?_⟩
  · unfold countDownloadActions
    rw [List.countP_append]
    have hd := (fetch_trace_no_processing f).1
    unfold countDownloadActions at hd
    rw [hd]
    rfl
  · unfold countSaveActions
    rw [List.countP_append]
    have hs := (fetch_trace_no_processing f).2
    unfold countSaveActions at hs
    rw [hs]
    rfl

/-- C3 witness: batch of one message for video "v1" whose result is already
in the store; the iteration reduces to a skip step. -/
theorem dedup_skip_witness :
    process_batch_go envC10 [vmsg "v1"] ["v1"] 0 []
      = ⟨(process_batch_go envC10 [] ["v1"] 0 []).results,
         (process_batch_go envC10 [] ["v1"] 0 []).processed,
         (process_batch_go envC10 [] ["v1"] 0 []).store,
         (get_video_from_queue (vmsg "v1")).2
           ++ (Act.dedupCheck (envC10.extract "v1") :: Act.skip (envC10.extract "v1")
             :: (process_batch_go envC10 [] ["v1"] 0 []).trace)⟩ :=
  (dedup_skip envC10 (vmsg "v1") [] ["v1"] 0 [] "v1" none
    (by decide) rfl (by decide) rfl (by decide)).1

/-- C8: a raised existence check is reported as `False` (conservatively "not
yet processed"), never propagated — and the orchestrator then proceeds with
reprocessing the video (here: even though its result is actually in the
store), taking the full processing branch of the iteration. -/
theorem exists_check_error_conservative (e : String) (env : BatchEnv)
    (f : FetchOutcome) (rest : List FetchOutcome) (store : List String)
    (processed : ℕ) (results : List VideoResult) (url : String)
    (custom : Option String) (stats : ScanStats)
    (h : processed < env.batchSize)
    (hf : (get_video_from_queue f).1 = some (url, custom)) (hurl : ¬ url = "")
    (hcf : env.checkFails (env.extract url) = true)
    (hmem : env.extract url ∈ store)
    (hproc : env.processVideo (env.extract url) = Except.ok stats) :
    results_exist_in_s3 (Except.error e) = false
    ∧ results_exist_in_s3
        (listResultsResp (env.checkFails (env.extract url)) store (env.extract url)) = false
    ∧ process_batch_go env (f :: rest) store processed results
      = (let store2 := if env.saveOk (env.extract url) then store ++ [env.extract url] else store
         let out := process_batch_go env rest store2 (processed + 1)
           (results ++ [⟨env.extract url, url, resolve_phrase custom env.defaultPhrase, stats⟩])
         ⟨out.results, out.processed, out.store,
           (get_video_from_queue f).2
             ++ (Act.dedupCheck (env.extract url) :: Act.download (env.extract url)
               :: Act.save (env.extract url) :: out.trace)⟩) := by
  have hex : results_exist_in_s3
      (listResultsResp (env.checkFails (env.extract url)) store (env.extract url)) = false := by
    rw [hcf]
    rfl
  exact ⟨rfl, hex, pbg_ok env f rest store processed results url custom stats h hf hurl hex hproc⟩

/-- C8 witness: video "v1" has a persisted result but the check raises; the
probe reports false and the item is reprocessed. -/
theorem exists_check_error_witness :
    results_exist_in_s3
      (listResultsResp (envC8.checkFails (envC8.extract "v1")) ["v1"]
        (envC8.extract "v1")) = false :=
  (exists_check_error_conservative "client error" envC8 (vmsg "v1") [] ["v1"] 0 []
    "v1" none dummyStats (by decide) rfl (by decide) rfl (by decide) rfl).2.1

/-- C4: an exception raised anywhere in the per-item try block (dedup probe
through result save) is caught at the per-item boundary and logged with the
item's video id; the counter, result list and store are untouched and the
loop proceeds to fetch the next item.  In the concrete batch of three queued
items where item 2's processing raises, exactly the two results for "v1"
and "v3" are returned, "v2" is started exactly once (not retried within the
run) and exactly one failure is logged for it. -/
theorem failure_isolation (env : BatchEnv) (f : FetchOutcome)
    (rest : List FetchOutcome) (store : List String) (processed : ℕ)
    (results : List VideoResult) (url : String) (custom : Option String)
    (e : String) (h : processed < env.batchSize)
    (hf : (get_video_from_queue f).1 = some (url, custom)) (hurl : ¬ url = "")
    (hex : results_exist_in_s3
      (listResultsResp (env.checkFails (env.extract url)) store (env.extract url)) = false)
    (hproc : env.processVideo (env.extract url) = Except.error e) :
    process_batch_go env (f :: rest) store processed results
      = ⟨(process_batch_go env rest store processed results).results,
         (process_batch_go env rest store processed results).processed,
         (process_batch_go env rest store processed results).store,
         (get_video_from_queue f).2
           ++ (Act.dedupCheck (env.extract url) :: Act.download (env.extract url)
             :: Act.failLog (env.extract url)
             :: (process_batch_go env rest store processed results).trace)⟩
    ∧ (process_batch envC4 [vmsg "v1", vmsg "v2", vmsg "v3"] []).results.map
        (fun r => r.video_id) = ["v1", "v3"]
    ∧ (process_batch envC4 [vmsg "v1", vmsg "v2", vmsg "v3"] []).trace.countP
        (fun a => a == Act.download "v2") = 1
    ∧ (process_batch envC4 [vmsg "v1", vmsg "v2", vmsg "v3"] []).trace.countP
        (fun a => a == Act.failLog "v2") = 1 := by
  refine ⟨pbg_fail env f rest store processed results url custom e h hf hurl hex hproc,
    ?_, ?_, ?_⟩
  · rfl
  · rfl
  · rfl

/-- C4 witness: a single-item batch whose processing raises; the step leaves
counter and results untouched and logs the failure. -/
theorem failure_isolation_witness :
    process_batch_go envC4 [FetchOutcome.msg (MsgBody.parsed "v2" none) true] [] 0 []
      = ⟨(process_batch_go envC4 [] [] 0 []).results,
         (process_batch_go envC4 [] [] 0 []).processed,
         (process_batch_go envC4 [] [] 0 []).store,
         (get_video_from_queue (FetchOutcome.msg (MsgBody.parsed "v2" none) true)).2
           ++ (Act.dedupCheck (envC4.extract "v2") :: Act.download (envC4.extract "v2")
             :: Act.failLog (envC4.extract "v2")
             :: (process_batch_go envC4 [] [] 0 []).trace)⟩ :=
  (failure_isolation envC4 (FetchOutcome.msg (MsgBody.parsed "v2" none) true) [] [] 0 []
    "v2" none "download failed" (by decide) rfl (by decide) rfl rfl).1

/-- C6 counterexample: a message whose body fails to parse as JSON is
treated as "no work this call", but it is NOT acknowledged: the
`delete_message` call follows `json.loads` in the try block, so the
`except json.JSONDecodeError` path returns without deleting — the trace of
the call holds no delete action, so the message stays on the queue and is
redelivered after the visibility timeout. -/
theorem malformed_message_cex :
    (get_video_from_queue (FetchOutcome.msg MsgBody.invalidJson true)).1 = none
    ∧ (get_video_from_queue (FetchOutcome.msg MsgBody.invalidJson true)).2
        = [Act.qreceive]
    ∧ countDeleteActions
        (get_video_from_queue (FetchOutcome.msg MsgBody.invalidJson true)).2 = 0 :=
  ⟨rfl, rfl, rfl⟩

/-- C6 (amended): a malformed message body is logged and treated as "no work
this call" in both malformed cases, but only a body that parses as JSON and
merely lacks the mandatory `youtube_url` field is acknowledged (deleted); a
body that fails JSON parsing is returned to the queue unacknowledged
(redelivered after the visibility timeout). -/
theorem malformed_message_amended (dOk : Bool) :
    get_video_from_queue (FetchOutcome.msg MsgBody.invalidJson dOk)
      = (none, [Act.qreceive])
    ∧ get_video_from_queue (FetchOutcome.msg MsgBody.parsedNoUrl true)
      = (none, [Act.qreceive, Act.qdelete none]) := by
  rcases dOk with _ | _
  · exact ⟨rfl, rfl⟩
  · exact ⟨rfl, rfl⟩

/-! ## Helper lemmas: acknowledgement precedes processing -/

/-- A trace without processing starts is accepted from any nonnegative
credit. -/
theorem ackOk_no_download (l : List Act) (c : ℤ) (hc : 0 ≤ c)
    (hl : ∀ a ∈ l, isDownloadA a = false) : ackOk c l = true := by
  induction l generalizing c with
  | nil => rfl
  | cons a rest ih =>
    have ha := hl a (by simp)
    have hrest : ∀ x ∈ rest, isDownloadA x = false :=
      fun x hx => hl x (List.mem_cons_of_mem a hx)
    by_cases hd : isDeleteA a = true
    · simp only [ackOk, ha, hd, Bool.false_eq_true, if_false, if_true,
        Bool.and_eq_true, decide_eq_true_eq]
      exact ⟨by omega, ih _ (by omega) hrest⟩
    · rw [Bool.not_eq_true] at hd
      simp only [ackOk, ha, hd, Bool.false_eq_true, if_false,
        Bool.and_eq_true, decide_eq_true_eq]
      exact ⟨by omega, ih _ (by omega) hrest⟩

/-- Accepted skip iteration block: receive, delete, dedup check, skip. -/
theorem ackOk_block_skip (v : String) (u : Option String) (t : List Act) (c : ℤ)
    (hc : 0 ≤ c) (ht : ∀ d : ℤ, 0 ≤ d → ackOk d t = true) :
    ackOk c (Act.qreceive :: Act.qdelete u :: Act.dedupCheck v :: Act.skip v :: t)
      = true := by
  simp only [ackOk, isDeleteA, isDownloadA, if_true, Bool.false_eq_true, if_false,
    Bool.and_eq_true, decide_eq_true_eq]
  refine ⟨by omega, by omega, by omega, by omega, ht _ (by omega)⟩

/-- Accepted processing iteration block: receive, delete, dedup check,
processing start, then a neutral closing event (save or failure log).  The
delete at position two funds the processing start at position four. -/
theorem ackOk_block_proc (v : String) (u : Option String) (a5 : Act) (t : List Act)
    (c : ℤ) (hc : 0 ≤ c) (h5d : isDeleteA a5 = false) (h5dl : isDownloadA a5 = false)
    (ht : ∀ d : ℤ, 0 ≤ d → ackOk d t = true) :
    ackOk c (Act.qreceive :: Act.qdelete u :: Act.dedupCheck v :: Act.download v
      :: a5 :: t) = true := by
  simp only [ackOk]
  rw [h5d, h5dl]
  simp only [isDeleteA, isDownloadA, if_true, Bool.false_eq_true, if_false,
    Bool.and_eq_true, decide_eq_true_eq]
  refine ⟨by omega, by omega, by omega, by omega, by omega, ht _ (by omega)⟩

/-- Every trace of the batch loop is accepted by the credit automaton: no
processing ever starts without an earlier unmatched acknowledgement. -/
theorem pbg_ackOk (env : BatchEnv) :
    ∀ (queue : List FetchOutcome) (store : List String) (processed : ℕ)
      (results : List VideoResult) (c : ℤ), 0 ≤ c →
      ackOk c (process_batch_go env queue store processed results).trace = true := by
  intro queue
  induction queue with
  | nil =>
    intro store processed results c hc
    by_cases h : processed < env.batchSize
    · rw [pbg_nil env store processed results h]
      rfl
    · rw [pbg_stop env [] store processed results h]
      rfl
  | cons f rest ih =>
    intro store processed results c hc
    by_cases h : processed < env.batchSize
    · rcases hw : (get_video_from_queue f).1 with _ | ⟨url, custom⟩
      · rw [pbg_nowork env f rest store processed results h hw]
        exact ackOk_no_download _ c hc (fetch_trace_no_download_mem f)
      · by_cases hurl : url = ""
        · subst hurl
          rw [pbg_emptyurl env f rest store processed results custom h hw]
          exact ackOk_no_download _ c hc (fetch_trace_no_download_mem f)
        · have hftr := fetch_some_trace f url custom hw
          by_cases hex : results_exist_in_s3
            (listResultsResp (env.checkFails (env.extract url)) store
              (env.extract url)) = true
          · rw [pbg_skip env f rest store processed results url custom h hw hurl hex]
            simp only [hftr, List.cons_append, List.nil_append]
            exact ackOk_block_skip _ _ _ c hc (fun d hd => ih store processed results d hd)
          · rw [Bool.not_eq_true] at hex
            rcases hp : env.processVideo (env.extract url) with e | stats
            · rw [pbg_fail env f rest store processed results url custom e h hw hurl hex hp]
              simp only [hftr, List.cons_append, List.nil_append]
              exact ackOk_block_proc _ _ _ _ c hc rfl rfl
                (fun d hd => ih store processed results d hd)
            · rw [pbg_ok env f rest store processed results url custom stats h hw hurl hex hp]
              simp only [hftr, List.cons_append, List.nil_append]
              exact ackOk_block_proc _ _ _ _ c hc rfl rfl
                (fun d hd => ih _ _ _ d hd)
    · rw [pbg_stop env (f :: rest) store processed results h]
      rfl

/-- Prefix counting for accepted traces: in every prefix, processing starts
never outnumber the initial credit plus acknowledgements. -/
theorem ackOk_take (l : List Act) :
    ∀ (c : ℤ), 0 ≤ c → ackOk c l = true →
      ∀ n : ℕ, (countDownloadActions (l.take n) : ℤ)
        ≤ c + countDeleteActions (l.take n) := by
  induction l with
  | nil =>
    intro c hc _ n
    simp [countDownloadActions, countDeleteActions]
    omega
  | cons a rest ih =>
    intro c hc hok n
    have hok2 : 0 ≤ c + (if isDeleteA a then 1 else 0)
          - (if isDownloadA a then 1 else 0)
        ∧ ackOk (c + (if isDeleteA a then 1 else 0)
          - (if isDownloadA a then 1 else 0)) rest = true := by
      simpa [ackOk, Bool.and_eq_true, decide_eq_true_eq] using hok
    match n with
    | 0 =>
      simp [countDownloadActions, countDeleteActions]
      omega
    | m + 1 =>
      rw [List.take_succ_cons]
      unfold countDownloadActions countDeleteActions
      rw [List.countP_cons, List.countP_cons]
      have ihm := ih _ hok2.1 hok2.2 m
      unfold countDownloadActions countDeleteActions at ihm
      by_cases hd : isDeleteA a = true <;> by_cases hdl : isDownloadA a = true <;>
        simp only [hd, hdl, if_true, Bool.false_eq_true, if_false] at hok2 ihm ⊢ <;>
        push_cast <;> omega

/-- C5: a fetch that yields a work item has already deleted (acknowledged)
the message during the fetch itself — its queue actions are exactly receive
then delete — and globally, in every prefix of a batch run's trace the
number of processing starts (download through persistence all happen inside
`_process_single_video` after this point) never exceeds the number of
acknowledgements: processing never begins for an item still unacknowledged
on the queue. -/
theorem ack_before_processing :
    (∀ (f : FetchOutcome) (url : String) (custom : Option String),
        (get_video_from_queue f).1 = some (url, custom) →
        (get_video_from_queue f).2 = [Act.qreceive, Act.qdelete (some url)])
    ∧ (∀ (env : BatchEnv) (queue : List FetchOutcome) (store : List String) (n : ℕ),
        countDownloadActions ((process_batch env queue store).trace.take n)
          ≤ countDeleteActions ((process_batch env queue store).trace.take n)) := by
  constructor
  · exact fun f url custom hf => fetch_some_trace f url custom hf
  · intro env queue store n
    have h := ackOk_take (process_batch env queue store).trace 0 le_rfl
      (pbg_ackOk env queue store 0 [] 0 le_rfl) n
    omega

/-- C5 witness: a parsed message for "v7" is acknowledged within the fetch,
before any processing could start. -/
theorem ack_before_processing_witness :
    (get_video_from_queue (FetchOutcome.msg (MsgBody.parsed "v7" none) true)).2
      = [Act.qreceive, Act.qdelete (some "v7")] :=
  ack_before_processing.1 (FetchOutcome.msg (MsgBody.parsed "v7" none) true) "v7" none rfl

/-- Counting save events past a non-save action. -/
theorem countSave_cons_notsave (a : Act) (l : List Act) (ha : isSaveA a = false) :
    countSaveActions (a :: l) = countSaveActions l := by
  unfold countSaveActions
  rw [List.countP_cons, ha]
  simp

/-- Loop invariant of `process_batch`: the processed counter tracks the
length of the accumulated result list, stays within the batch size, and both
grow exactly by the number of save-returns in the emitted trace. -/
theorem pbg_invariant (env : BatchEnv) :
    ∀ (queue : List FetchOutcome) (store : List String) (processed : ℕ)
      (results : List VideoResult),
      processed = results.length → processed ≤ env.batchSize →
      (process_batch_go env queue store processed results).processed
          = (process_batch_go env queue store processed results).results.length
        ∧ (process_batch_go env queue store processed results).processed ≤ env.batchSize
        ∧ (process_batch_go env queue store processed results).results.length
            = results.length
              + countSaveActions (process_batch_go env queue store processed results).trace := by
  intro queue
  induction queue with
  | nil =>
    intro store processed results hpr hle
    by_cases h : processed < env.batchSize
    · rw [pbg_nil env store processed results h]
      exact ⟨hpr, hle, by simp [countSaveActions]⟩
    · rw [pbg_stop env [] store processed results h]
      exact ⟨hpr, hle, by simp [countSaveActions]⟩
  | cons f rest ih =>
    intro store processed results hpr hle
    by_cases h : processed < env.batchSize
    · rcases hw : (get_video_from_queue f).1 with _ | ⟨url, custom⟩
      · rw [pbg_nowork env f rest store processed results h hw]
        refine ⟨hpr, hle, ?_⟩
        rw [(fetch_trace_no_processing f).2]
        simp
      · by_cases hurl : url = ""
        · subst hurl
          rw [pbg_emptyurl env f rest store processed results custom h hw]
          refine ⟨hpr, hle, ?_⟩
          rw [(fetch_trace_no_processing f).2]
          simp
        · by_cases hex : results_exist_in_s3
            (listResultsResp (env.checkFails (env.extract url)) store
              (env.extract url)) = true
          · rw [pbg_skip env f rest store processed results url custom h hw hurl hex]
            obtain ⟨ih1, ih2, ih3⟩ := ih store processed results hpr hle
            refine ⟨ih1, ih2, ?_⟩
            show (process_batch_go env rest store processed results).results.length
              = results.length + countSaveActions ((get_video_from_queue f).2
                ++ (Act.dedupCheck (env.extract url) :: Act.skip (env.extract url)
                  :: (process_batch_go env rest store processed results).trace))
            unfold countSaveActions
            rw [List.countP_append]
            have h0 := (fetch_trace_no_processing f).2
            unfold countSaveActions at h0
            rw [h0, List.countP_cons, List.countP_cons]
            unfold countSaveActions at ih3
            simp [isSaveA]
            omega
          · rw [Bool.not_eq_true] at hex
            rcases hp : env.processVideo (env.extract url) with e | stats
            · rw [pbg_fail env f rest store processed results url custom e h hw hurl hex hp]
              obtain ⟨ih1, ih2, ih3⟩ := ih store processed results hpr hle
              refine ⟨ih1, ih2, ?_⟩
              show (process_batch_go env rest store processed results).results.length
                = results.length + countSaveActions ((get_video_from_queue f).2
                  ++ (Act.dedupCheck (env.extract url) :: Act.download (env.extract url)
                    :: Act.failLog (env.extract url)
                    :: (process_batch_go env rest store processed results).trace))
              unfold countSaveActions
              rw [List.countP_append]
              have h0 := (fetch_trace_no_processing f).2
              unfold countSaveActions at h0
              rw [h0, List.countP_cons, List.countP_cons, List.countP_cons]
              unfold countSaveActions at ih3
              simp [isSaveA]
              omega
            · rw [pbg_ok env f rest store processed results url custom stats h hw hurl hex hp]
              obtain ⟨ih1, ih2, ih3⟩ := ih
                (if env.saveOk (env.extract url) then store ++ [env.extract url] else store)
                (processed + 1)
                (results ++ [⟨env.extract url, url,
                  resolve_phrase custom env.defaultPhrase, stats⟩])
                (by simp [hpr]) (by omega)
              refine ⟨ih1, ih2, ?_⟩
              show (process_batch_go env rest
                  (if env.saveOk (env.extract url) then store ++ [env.extract url] else store)
                  (processed + 1)
                  (results ++ [⟨env.extract url, url,
                    resolve_phrase custom env.defaultPhrase, stats⟩])).results.length
                = results.length + countSaveActions ((get_video_from_queue f).2
                  ++ (Act.dedupCheck (env.extract url) :: Act.download (env.extract url)
                    :: Act.save (env.extract url)
                    :: (process_batch_go env rest
                      (if env.saveOk (env.extract url) then store ++ [env.extract url] else store)
                      (processed + 1)
                      (results ++ [⟨env.extract url, url,
                        resolve_phrase custom env.defaultPhrase, stats⟩])).trace))
              unfold countSaveActions
              rw [List.countP_append]
              have h0 := (fetch_trace_no_processing f).2
              unfold countSaveActions at h0
              rw [h0, List.countP_cons, List.countP_cons, List.countP_cons]
              unfold countSaveActions at ih3
              simp [isSaveA] at ih3 ⊢
              omega
    · rw [pbg_stop env (f :: rest) store processed results h]
      exact ⟨hpr, hle, by simp [countSaveActions]⟩

/-- C10: throughout the batch loop, the processed counter equals the length
of the accumulated result list, both bounded by the batch size and growing
exactly by one per save-return (so skipped and failed items contribute
nothing and each returned result comes from exactly one successfully
processed item); the returned batch holds at most batchSize results, while
the loop may consume more queue items than batchSize: the concrete batch
with size 1 and a dedup-skipped first item receives two messages and
returns one result. -/
theorem batch_loop_invariant (env : BatchEnv) (queue : List FetchOutcome)
    (store : List String) (processed : ℕ) (results : List VideoResult)
    (hpr : processed = results.length) (hle : processed ≤ env.batchSize) :
    ((process_batch_go env queue store processed results).processed
        = (process_batch_go env queue store processed results).results.length
      ∧ (process_batch_go env queue store processed results).processed ≤ env.batchSize
      ∧ (process_batch_go env queue store processed results).results.length
          = results.length
            + countSaveActions (process_batch_go env queue store processed results).trace
      ∧ (process_batch env queue store).results.length ≤ env.batchSize)
    ∧ ((process_batch envC10 [vmsg "v1", vmsg "v2"] ["v1"]).results.length = 1
      ∧ envC10.batchSize = 1
      ∧ countReceiveActions
          (process_batch envC10 [vmsg "v1", vmsg "v2"] ["v1"]).trace = 2) := by
  obtain ⟨h1, h2, h3⟩ := pbg_invariant env queue store processed results hpr hle
  obtain ⟨g1, g2, g3⟩ := pbg_invariant env queue store 0 [] rfl (Nat.zero_le _)
  refine ⟨⟨h1, h2, h3, ?_⟩, rfl, rfl, rfl⟩
  show (process_batch_go env queue store 0 []).results.length ≤ env.batchSize
  omega

/-- C10 witness: starting from an empty accumulator the invariant holds on
the concrete environment. -/
theorem batch_loop_invariant_witness :
    (process_batch_go envC10 [vmsg "v1", vmsg "v2"] ["v1"] 0 []).processed
      = (process_batch_go envC10 [vmsg "v1", vmsg "v2"] ["v1"] 0 []).results.length :=
  (batch_loop_invariant envC10 [vmsg "v1", vmsg "v2"] ["v1"] 0 [] rfl
    (Nat.zero_le _)).1.1
